import Mathlib

/-!
Shallow embedding of `src/navigation/controllers.cpp` (time-optimal 1D
controller and latency compensator) and verification of the behavioural
claims of the specification against it.

Modelling conventions:
* C++ `float`/`double` arithmetic is embedded as exact real arithmetic (ℝ).
* `std::atan2`, `acos`, `asin`, `sqrt`, `sin`, `cos` become `Complex.arg`,
  `Real.arccos`, `Real.arcsin`, `Real.sqrt`, `Real.sin`, `Real.cos`.
* The mutable running minima of the C++ loops become `List.foldl` states.
* `ros::Time::now()` is threaded through as an explicit `now : ℝ` argument.
-/

noncomputable section

namespace controllers

/-- Vehicle geometry and limits (`vehicles::Car`, declared outside `src/`).
Modelled from the spec: dimensions `{width, length, wheelbase}` and limits
`{max_speed, max_acceleration, max_curvature}`, plain data. -/
structure Car where
  width : ℝ
  length : ℝ
  wheelbase : ℝ
  max_speed : ℝ
  max_acceleration : ℝ
  max_curvature : ℝ

/-- Two-argument arctangent, `std::atan2 y x`, as the argument of the complex
number with real part `x` and imaginary part `y`. -/
def atan2 (y x : ℝ) : ℝ := Complex.arg ⟨x, y⟩

namespace time_optimal_1D

/-- A motion command `(velocity, curvature)` (`time_optimal_1D::Command`). -/
structure Command where
  velocity : ℝ
  curvature : ℝ

/-- A scored constant-curvature path candidate (`time_optimal_1D::PathCandidate`). -/
structure PathCandidate where
  curvature : ℝ
  free_path_length : ℝ
  clearance : ℝ
  goal_distance : ℝ
  score : ℝ

/-- The sampler's immutable state (`time_optimal_1D::Controller` members set in
the constructor). -/
structure Controller where
  car : Car
  control_interval : ℝ
  margin : ℝ
  max_clearance : ℝ
  curvature_sampling_interval : ℝ

/-- One iteration of the point-cloud loop of the straight-line branch of
`Controller::calculateFreePathLength` (source lines 70-85): points strictly in
front of the car and laterally inside `width/2 + margin` shrink the running
free path length. -/
def fplStraightStep (C : Controller) (fpl : ℝ) (p : ℝ × ℝ) : ℝ :=
  if |p.2| < C.car.width / 2 + C.margin ∧ 0 < p.1 then
    let cand := p.1 - (C.margin + (C.car.length + C.car.wheelbase) / 2)
    if cand < fpl then cand else fpl
  else fpl

/-- The `radius` local of the arc branches (source lines 87-92 and 185-189):
`1/curvature`, made positive for right turns. -/
def radiusOf (curvature : ℝ) : ℝ :=
  if curvature < 0 then -(1 / curvature) else 1 / curvature

/-- The local `inside_rear_axle_radius` of the arc branch (source line 95). -/
def inside_rear_axle_radius (C : Controller) (radius : ℝ) : ℝ :=
  radius - (C.margin + C.car.width / 2)

/-- The local `inside_front_corner_radius` (source line 96). -/
def inside_front_corner_radius (C : Controller) (radius : ℝ) : ℝ :=
  Real.sqrt ((radius - (C.margin + C.car.width / 2)) ^ 2 +
    (C.margin + (C.car.length + C.car.wheelbase) / 2) ^ 2)

/-- The local `outside_front_corner_radius` (source line 97). -/
def outside_front_corner_radius (C : Controller) (radius : ℝ) : ℝ :=
  Real.sqrt ((radius + (C.margin + C.car.width / 2)) ^ 2 +
    (C.margin + (C.car.length + C.car.wheelbase) / 2) ^ 2)

/-- The local `outside_rear_corner_radius` (source line 98). -/
def outside_rear_corner_radius (C : Controller) (radius : ℝ) : ℝ :=
  Real.sqrt ((radius + (C.margin + C.car.width / 2)) ^ 2 +
    (C.margin + (C.car.length - C.car.wheelbase) / 2) ^ 2)

/-- The local `outside_rear_axle_radius` (source line 99). -/
def outside_rear_axle_radius (C : Controller) (radius : ℝ) : ℝ :=
  radius + (C.margin + C.car.width / 2)

/-- The per-point lateral coordinate, reflected for right turns
(source lines 104-107 and 194-196). -/
def adjY (curvature : ℝ) (p : ℝ × ℝ) : ℝ :=
  if curvature < 0 then -p.2 else p.2

/-- The per-point `point_radius` (source lines 110 and 198). -/
def point_radius_of (radius : ℝ) (p : ℝ × ℝ) (py : ℝ) : ℝ :=
  Real.sqrt (p.1 ^ 2 + (radius - py) ^ 2)

/-- One iteration of the point-cloud loop of the arc branch of
`Controller::calculateFreePathLength` (source lines 102-154).  The state is
`(free_path_length, candidate_free_path_length)`; the second component is the
variable written (but never committed) by the condition-three branch. -/
def fplArcStep (C : Controller) (curvature radius : ℝ) (st : ℝ × ℝ) (p : ℝ × ℝ) : ℝ × ℝ :=
  let py := adjY curvature p
  let r := point_radius_of radius p py
  let θ := atan2 p.1 (radius - py)
  if r < inside_rear_axle_radius C radius then st
  else if max (outside_front_corner_radius C radius) (outside_rear_corner_radius C radius) < r
    then st
  else
    let fpl1 :=
      if inside_rear_axle_radius C radius ≤ r ∧ r < inside_front_corner_radius C radius ∧
         0 < θ then
        let φ := θ - Real.arccos (inside_rear_axle_radius C radius / r)
        if radius * φ < st.1 then radius * φ else st.1
      else if inside_front_corner_radius C radius ≤ r ∧
          r < outside_front_corner_radius C radius ∧ 0 < θ then
        let φ := θ - Real.arcsin ((C.margin + (C.car.length + C.car.wheelbase) / 2) / r)
        if radius * φ < st.1 then radius * φ else st.1
      else st.1
    let cand1 :=
      if (outside_rear_axle_radius C radius ≤ r ∧ r < outside_rear_corner_radius C radius) ∧
         (|p.1| < C.margin + (C.car.length - C.car.wheelbase) / 2 ∧
          C.margin + C.car.width / 2 < |py|) then
        let φ := θ - (-Real.arccos (outside_rear_axle_radius C radius / r))
        if radius * φ < fpl1 then radius * φ else st.2
      else st.2
    (fpl1, cand1)

/-- `Controller::calculateFreePathLength` (source lines 62-163).  The initial
value is the horizon `10` minus `margin + (length + wheelbase)/2`; it is never
floored at zero.  In the arc branch the second fold component is the dead
`candidate_free_path_length` variable of condition three. -/
def calculateFreePathLength (C : Controller) (cloud : List (ℝ × ℝ)) (curvature : ℝ) : ℝ :=
  let init : ℝ := 10 - (C.margin + (C.car.length + C.car.wheelbase) / 2)
  if |curvature| < 0.01 then
    cloud.foldl (fplStraightStep C) init
  else
    (cloud.foldl (fplArcStep C curvature (radiusOf curvature)) (init, 0)).1

/-- Variant of the arc step with the condition-three branch removed: only
conditions one and two act.  Comparison definition for the claim that
condition three never changes the result. -/
def fplArcStepConds12 (C : Controller) (curvature radius : ℝ) (fpl : ℝ) (p : ℝ × ℝ) : ℝ :=
  let py := adjY curvature p
  let r := point_radius_of radius p py
  let θ := atan2 p.1 (radius - py)
  if r < inside_rear_axle_radius C radius then fpl
  else if max (outside_front_corner_radius C radius) (outside_rear_corner_radius C radius) < r
    then fpl
  else
    if inside_rear_axle_radius C radius ≤ r ∧ r < inside_front_corner_radius C radius ∧
       0 < θ then
      let φ := θ - Real.arccos (inside_rear_axle_radius C radius / r)
      if radius * φ < fpl then radius * φ else fpl
    else if inside_front_corner_radius C radius ≤ r ∧
        r < outside_front_corner_radius C radius ∧ 0 < θ then
      let φ := θ - Real.arcsin ((C.margin + (C.car.length + C.car.wheelbase) / 2) / r)
      if radius * φ < fpl then radius * φ else fpl
    else fpl

/-- Free path length computed with conditions one and two only (condition
three removed). -/
def calculateFreePathLengthConds12 (C : Controller) (cloud : List (ℝ × ℝ)) (curvature : ℝ) : ℝ :=
  let init : ℝ := 10 - (C.margin + (C.car.length + C.car.wheelbase) / 2)
  if |curvature| < 0.01 then
    cloud.foldl (fplStraightStep C) init
  else
    cloud.foldl (fplArcStepConds12 C curvature (radiusOf curvature)) init

/-- The straight-branch free path length as the spec words it, with an
explicit seed: the minimum of the seed and of `px - (m + (L+b)/2)` over points
with `|py| < w/2 + m` and `px > 0`. -/
def straightFPLSeed (C : Controller) (cloud : List (ℝ × ℝ)) (a : ℝ) : ℝ :=
  cloud.foldr
    (fun p acc =>
      if |p.2| < C.car.width / 2 + C.margin ∧ 0 < p.1 then
        min (p.1 - (C.margin + (C.car.length + C.car.wheelbase) / 2)) acc
      else acc)
    a

/-- The straight-branch free path length as the spec words it: the minimum of
the horizon seed `10 - (m + (L+b)/2)` and of `px - (m + (L+b)/2)` over points
with `|py| < w/2 + m` and `px > 0` (no flooring). -/
def straightFPLSpec (C : Controller) (cloud : List (ℝ × ℝ)) : ℝ :=
  straightFPLSeed C cloud (10 - (C.margin + (C.car.length + C.car.wheelbase) / 2))

/-- Inverse instantaneous-centre-of-rotation transform
(`utils::transforms::transformICOM`, declared outside `src/`).
Modelled from the spec: the robot advances by arc angle `φ` on the circle of
radius `R` centred at `(0, R)`, reaching pose `(R sin φ, R - R cos φ, φ)`;
the point is mapped into that new body frame. -/
def transformICOM (x y φ R : ℝ) : ℝ × ℝ :=
  (Real.cos φ * (x - R * Real.sin φ) + Real.sin φ * (y - (R - R * Real.cos φ)),
   -Real.sin φ * (x - R * Real.sin φ) + Real.cos φ * (y - (R - R * Real.cos φ)))

/-- One iteration of the straight-line branch of `Controller::calculateClearance`
(source lines 172-182). -/
def clearStraightStep (C : Controller) (fpl : ℝ) (mc : ℝ) (p : ℝ × ℝ) : ℝ :=
  if (C.car.width / 2 + C.margin ≤ |p.2| ∧ |p.2| ≤ C.max_clearance) ∧
     (0 ≤ p.1 ∧ p.1 ≤ fpl + C.car.wheelbase) then
    let cl := |p.2| - C.car.wheelbase / 2 - C.margin
    if cl < mc then cl else mc
  else mc

/-- One iteration of the arc branch of `Controller::calculateClearance`
(source lines 192-216).  The guard of the second pool divides the boolean
`pos.x() <= wheelbase_` by two in integer arithmetic (source line 210), which
is modelled verbatim; the quotient is always zero, so that pool never fires. -/
def clearArcStep (C : Controller) (curvature radius fpl : ℝ) (mc : ℝ) (p : ℝ × ℝ) : ℝ :=
  let py := adjY curvature p
  let r := point_radius_of radius p py
  let θ := atan2 p.1 (radius - py)
  let φ := fpl / radius
  let mc1 :=
    if (0 ≤ θ ∧ θ ≤ φ) ∧
       (radius - C.car.width / 2 - C.margin - C.max_clearance ≤ r ∧
        r ≤ radius + C.car.width / 2 + C.margin + C.max_clearance) then
      let cl := |r * Real.cos θ - radius| - C.car.width / 2 - C.margin
      if cl < mc then cl else mc
    else mc
  let pos := transformICOM p.1 py φ radius
  if (C.car.width / 2 + C.margin ≤ |pos.2| ∧ |pos.2| ≤ C.max_clearance) ∧
     (0 ≤ pos.1 ∧ ((if pos.1 ≤ C.car.wheelbase then (1 : ℤ) else 0) / 2 ≠ 0)) then
    let cl := |pos.2| - C.car.width / 2 - C.margin
    if cl < mc1 then cl else mc1
  else mc1

/-- `Controller::calculateClearance` (source lines 165-219): running minimum
seeded with `max_clearance`, never floored at zero. -/
def calculateClearance (C : Controller) (cloud : List (ℝ × ℝ)) (curvature fpl : ℝ) : ℝ :=
  if |curvature| < 0.01 then
    cloud.foldl (clearStraightStep C fpl) C.max_clearance
  else
    cloud.foldl (clearArcStep C curvature (radiusOf curvature) fpl) C.max_clearance

/-- `Controller::calculateDistanceToGoal` (source lines 221-239): distance
from the pose projected one control interval ahead at `max_speed` to the fixed
goal `(10, 0)`. -/
def calculateDistanceToGoal (C : Controller) (curvature : ℝ) : ℝ :=
  if |curvature| < 0.01 then
    Real.sqrt ((10 - C.car.max_speed * C.control_interval) ^ 2 + (0 - 0) ^ 2)
  else
    let radius := 1 / curvature
    let φ := C.car.max_speed * C.control_interval / radius
    Real.sqrt ((10 - radius * Real.sin φ) ^ 2 + (0 - (radius - radius * Real.cos φ)) ^ 2)

/-- The curvatures enumerated by the sampling loop of
`Controller::evaluatePaths` (source line 250): starting at `-max_curvature`
and stepping by `curvature_sampling_interval` while the value stays at most
`max_curvature`.  The C++ loop accumulates a `float`; it is embedded in exact
real arithmetic, guarded so that it is well defined exactly when the loop
terminates. -/
def sampleCurvatures (C : Controller) : List ℝ :=
  if 0 < C.curvature_sampling_interval ∧ 0 ≤ C.car.max_curvature then
    (List.range (Nat.floor (2 * C.car.max_curvature / C.curvature_sampling_interval) + 1)).map
      (fun i : ℕ => -C.car.max_curvature + (i : ℝ) * C.curvature_sampling_interval)
  else []

/-- Construction of one `PathCandidate` in the body of the sampling loop
(source lines 253-266), with weights `w1 = 8`, `w2 = -0.5`. -/
def mkCandidate (C : Controller) (cloud : List (ℝ × ℝ)) (κ : ℝ) : PathCandidate :=
  let fpl := calculateFreePathLength C cloud κ
  let cl := calculateClearance C cloud κ fpl
  let gd := calculateDistanceToGoal C κ
  { curvature := κ
    free_path_length := fpl
    clearance := cl
    goal_distance := gd
    score := fpl + 8 * cl + (-0.5) * gd }

/-- The starting candidate `PathCandidate(-100)` (source line 244).
Modelled from the spec: the constructor lives in the missing header
`controllers.h`; the spec describes it as a sentinel of score `-100`, all
other fields defaulted (zero). -/
def sentinelCandidate : PathCandidate :=
  { curvature := 0, free_path_length := 0, clearance := 0, goal_distance := 0, score := -100 }

/-- The selection update of `evaluatePaths` (source lines 268-270): a
candidate replaces the best path exactly when its score is strictly
greater. -/
def selectStep (b c : PathCandidate) : PathCandidate :=
  if b.score < c.score then c else b

/-- The list of candidates built by the sampling loop. -/
def candidateList (C : Controller) (cloud : List (ℝ × ℝ)) : List PathCandidate :=
  (sampleCurvatures C).map (mkCandidate C cloud)

/-- `Controller::evaluatePaths` (source lines 241-274). -/
def evaluatePaths (C : Controller) (cloud : List (ℝ × ℝ)) : PathCandidate :=
  (candidateList C cloud).foldl selectStep sentinelCandidate

/-- `Controller::calculateControlSpeed` (source lines 23-60): snap the current
speed to `max_speed` within `±0.05`, pick accelerate / cruise / decelerate
(the imminent-collision fallback emits the same decelerating speed), then
floor at `0` and cap at `max_speed`. -/
def calculateControlSpeed (C : Controller) (current_speed fpl : ℝ) : ℝ :=
  let cs := if C.car.max_speed - 0.05 ≤ current_speed ∧ current_speed ≤ C.car.max_speed + 0.05
    then C.car.max_speed else current_speed
  let ctrl :=
    if cs < C.car.max_speed ∧
       cs * C.control_interval +
         C.car.max_acceleration * C.control_interval * C.control_interval / 2 +
         (cs + C.car.max_acceleration * C.control_interval) ^ 2 /
           (2 * C.car.max_acceleration) ≤ fpl then
      cs + C.car.max_acceleration * C.control_interval
    else if cs = C.car.max_speed ∧
        cs * C.control_interval +
          C.car.max_speed * C.car.max_speed / (2 * C.car.max_acceleration) ≤ fpl then
      cs
    else if fpl < cs ^ 2 / (2 * C.car.max_acceleration) then
      cs - C.car.max_acceleration * C.control_interval
    else
      cs - C.car.max_acceleration * C.control_interval
  let floored := if ctrl < 0 then 0 else ctrl
  if C.car.max_speed < floored then C.car.max_speed else floored

/-- `Controller::generateCommand` (source lines 276-282). -/
def generateCommand (C : Controller) (cloud : List (ℝ × ℝ)) (current_speed : ℝ) : Command :=
  let path := evaluatePaths C cloud
  { velocity := calculateControlSpeed C current_speed path.free_path_length
    curvature := path.curvature }

end time_optimal_1D

/-- Reflection of a point cloud across the `y = 0` axis. -/
def reflectCloud (cloud : List (ℝ × ℝ)) : List (ℝ × ℝ) :=
  cloud.map (fun p => (p.1, -p.2))

namespace latency_compensation

/-- A stamped command (`latency_compensation::CommandStamped`, declared
outside `src/`).  Modelled from the spec: a command plus a timestamp in
seconds. -/
structure CommandStamped where
  command : time_optimal_1D.Command
  timestamp : ℝ

/-- Projected planar state (`latency_compensation::State2D`, declared outside
`src/`).  Modelled from the spec: position, heading and speed. -/
structure State2D where
  x : ℝ
  y : ℝ
  theta : ℝ
  speed : ℝ

/-- The compensator (`latency_compensation::Controller`): an owned sampler,
the latency parameter, and the command history (oldest first). -/
structure Controller where
  toc : time_optimal_1D.Controller
  latency : ℝ
  history : List CommandStamped

/-- `Controller::recordCommand` (source lines 315-320): append to the history,
timestamp unchanged. -/
def recordCommand (h : List CommandStamped) (c : CommandStamped) : List CommandStamped :=
  h ++ [c]

/-- The head-pruning loop of `Controller::projectState` (source lines
361-368): pop from the front while `now - front.timestamp` is not below the
latency. -/
def pruneHistory (now latency : ℝ) (h : List CommandStamped) : List CommandStamped :=
  h.dropWhile (fun c => decide (latency ≤ now - c.timestamp))

/-- One iteration of the forward-simulation loop of `Controller::projectState`
(source lines 372-390). -/
def projectStep (Δt : ℝ) (st : State2D) (c : CommandStamped) : State2D :=
  let dist := c.command.velocity * Δt
  if 0.01 < |c.command.curvature| then
    let radius := 1 / c.command.curvature
    let θ := dist / radius
    { x := st.x + dist * Real.cos θ
      y := st.y + dist * Real.sin θ
      theta := st.theta + θ
      speed := c.command.velocity }
  else
    { st with x := st.x + dist, speed := c.command.velocity }

/-- `Controller::projectState` (source lines 349-395): seed state at the
origin with the current speed; if the history is empty return it unchanged,
otherwise prune the head against `now` and fold the surviving commands.
Returns the state together with the history as left behind by the pruning
(the source mutates the member in place).  The unused `last_msg_timestamp`
parameter of the source (only printed) is omitted. -/
def projectState (L : Controller) (now current_speed : ℝ) : State2D × List CommandStamped :=
  let seed : State2D := { x := 0, y := 0, theta := 0, speed := current_speed }
  match L.history with
  | [] => (seed, [])
  | _ :: _ =>
    let h := pruneHistory now L.latency L.history
    (h.foldl (projectStep L.toc.control_interval) seed, h)

/-- `Controller::transformCloud` (source lines 402-423): the source builds the
homogeneous matrix of `(x, y, θ)` and applies its Eigen inverse to every
point; this is that inverse in closed form (the matrix is a rigid motion of
determinant one). -/
def transformCloud (cloud : List (ℝ × ℝ)) (st : State2D) : List (ℝ × ℝ) :=
  cloud.map (fun p =>
    (Real.cos st.theta * p.1 + Real.sin st.theta * p.2 -
       (Real.cos st.theta * st.x + Real.sin st.theta * st.y),
     -Real.sin st.theta * p.1 + Real.cos st.theta * p.2 +
       (Real.sin st.theta * st.x - Real.cos st.theta * st.y)))

/-- `Controller::generateCommand` (source lines 332-347): project the state,
transform the cloud, delegate to the sampler, record the emitted command.
The `CommandStamped` constructor stamping with `now()` is modelled from the
spec (`record_command(cmd, now())`); both clock reads of the tick are the
same `now`. -/
def generateCommand (L : Controller) (now : ℝ) (cloud : List (ℝ × ℝ))
    (current_speed : ℝ) : time_optimal_1D.Command × Controller :=
  let pr := projectState L now current_speed
  let cloud2 := transformCloud cloud pr.1
  let cmd := time_optimal_1D.generateCommand L.toc cloud2 pr.1.speed
  (cmd, { L with history := recordCommand pr.2 { command := cmd, timestamp := now } })

/-- `Controller::calculateFreePathLength` (source lines 425-436): the
diagnostic probe; projects with seed speed `0` (pruning the history as a side
effect), transforms the cloud and returns the sampler's free path length. -/
def calculateFreePathLength (L : Controller) (now : ℝ) (cloud : List (ℝ × ℝ))
    (curvature : ℝ) : ℝ × Controller :=
  let pr := projectState L now 0
  let cloud2 := transformCloud cloud pr.1
  (time_optimal_1D.calculateFreePathLength L.toc cloud2 curvature, { L with history := pr.2 })

/-- Timestamps of a command history are non-decreasing, oldest first. -/
def histMonotone (h : List CommandStamped) : Prop :=
  List.Chain' (fun a b => a.timestamp ≤ b.timestamp) h

end latency_compensation

/-- The concrete vehicle of the spec scenarios: `w = 0.28`, `L = 0.5`,
`b = 0.32`, `v_max = 1`, `a_max = 4`, `κ_max = 1`. -/
def specCar : Car :=
  { width := 0.28, length := 0.5, wheelbase := 0.32
    max_speed := 1, max_acceleration := 4, max_curvature := 1 }

/-- The concrete sampler of the spec scenarios: `Δt = 0.05`, `m = 0.05`,
`c_max = 0.5`, `Δκ = 0.05`. -/
def specTOC : time_optimal_1D.Controller :=
  { car := specCar, control_interval := 0.05, margin := 0.05
    max_clearance := 0.5, curvature_sampling_interval := 0.05 }

namespace time_optimal_1D

lemma selectStep_left_le (b c : PathCandidate) : b.score ≤ (selectStep b c).score := by
  unfold selectStep
  split_ifs with h
  · exact le_of_lt h
  · exact le_rfl

lemma selectStep_right_le (b c : PathCandidate) : c.score ≤ (selectStep b c).score := by
  unfold selectStep
  split_ifs with h
  · exact le_rfl
  · exact le_of_not_lt h

lemma foldl_select_score_mono (l : List PathCandidate) (b : PathCandidate) :
    b.score ≤ (l.foldl selectStep b).score := by
  induction l generalizing b with
  | nil => exact le_rfl
  | cons c t ih =>
    exact le_trans (selectStep_left_le b c) (ih (selectStep b c))

lemma foldl_select_mem (l : List PathCandidate) (b : PathCandidate) :
    l.foldl selectStep b = b ∨ l.foldl selectStep b ∈ l := by
  induction l generalizing b with
  | nil => exact Or.inl rfl
  | cons c t ih =>
    rw [List.foldl_cons]
    rcases ih (selectStep b c) with h | h
    · rw [h]
      unfold selectStep
      split_ifs
      · exact Or.inr (List.mem_cons_self _ _)
      · exact Or.inl rfl
    · exact Or.inr (List.mem_cons_of_mem _ h)

lemma foldl_select_le_score (l : List PathCandidate) (b : PathCandidate) :
    ∀ c ∈ l, c.score ≤ (l.foldl selectStep b).score := by
  induction l generalizing b with
  | nil => intro c hc; simp at hc
  | cons d t ih =>
    intro c hc
    rw [List.foldl_cons]
    rcases List.mem_cons.mp hc with rfl | hc2
    · exact le_trans (selectStep_right_le b c) (foldl_select_score_mono t _)
    · exact ih (selectStep b d) c hc2

lemma foldl_select_no_improve (l : List PathCandidate) (b : PathCandidate)
    (h : ∀ c ∈ l, c.score ≤ b.score) : l.foldl selectStep b = b := by
  induction l with
  | nil => rfl
  | cons c t ih =>
    have hc : c.score ≤ b.score := h c (List.mem_cons_self _ _)
    have hb : selectStep b c = b := by
      unfold selectStep
      rw [if_neg (not_lt.mpr hc)]
    rw [List.foldl_cons, hb]
    exact ih (fun d hd => h d (List.mem_cons_of_mem _ hd))

lemma foldl_select_firstMax (l : List PathCandidate) (b : PathCandidate)
    (h : ∃ c ∈ l, b.score < c.score) :
    ∃ (i : ℕ) (hi : i < l.length),
      l.foldl selectStep b = l.get ⟨i, hi⟩ ∧
      ∀ (j : ℕ) (hj : j < l.length), j < i →
        (l.get ⟨j, hj⟩).score < (l.foldl selectStep b).score := by
  induction l generalizing b with
  | nil => simp at h
  | cons c t ih =>
    by_cases hc : b.score < c.score
    · have hb2 : selectStep b c = c := by unfold selectStep; rw [if_pos hc]
      by_cases ht : ∃ d ∈ t, c.score < d.score
      · obtain ⟨i, hi, heq, hlt⟩ := ih (b := c) ht
        refine ⟨i + 1, Nat.succ_lt_succ hi, ?_, ?_⟩
        · rw [List.foldl_cons, hb2]
          exact heq
        · intro j hj hji
          rw [List.foldl_cons, hb2]
          cases j with
          | zero =>
            obtain ⟨d, hd, hcd⟩ := ht
            simpa using lt_of_lt_of_le hcd (foldl_select_le_score t c d hd)
          | succ j2 =>
            have hj2 : j2 < t.length := Nat.lt_of_succ_lt_succ hj
            simpa using hlt j2 hj2 (Nat.lt_of_succ_lt_succ hji)
      · push_neg at ht
        have hfold : t.foldl selectStep c = c := foldl_select_no_improve t c ht
        refine ⟨0, Nat.succ_pos _, ?_, ?_⟩
        · rw [List.foldl_cons, hb2, hfold]
          rfl
        · intro j hj hji
          exact absurd hji (Nat.not_lt_zero j)
    · have hb2 : selectStep b c = b := by unfold selectStep; rw [if_neg hc]
      have ht : ∃ d ∈ t, b.score < d.score := by
        obtain ⟨d, hd, hbd⟩ := h
        rcases List.mem_cons.mp hd with rfl | hd2
        · exact absurd hbd hc
        · exact ⟨d, hd2, hbd⟩
      obtain ⟨i, hi, heq, hlt⟩ := ih (b := b) ht
      refine ⟨i + 1, Nat.succ_lt_succ hi, ?_, ?_⟩
      · rw [List.foldl_cons, hb2]
        exact heq
      · intro j hj hji
        rw [List.foldl_cons, hb2]
        cases j with
        | zero =>
          obtain ⟨d, hd, hbd⟩ := ht
          have h1 : c.score ≤ b.score := le_of_not_lt hc
          have h2 : b.score < (t.foldl selectStep b).score :=
            lt_of_lt_of_le hbd (foldl_select_le_score t b d hd)
          simpa using lt_of_le_of_lt h1 h2
        | succ j2 =>
          have hj2 : j2 < t.length := Nat.lt_of_succ_lt_succ hj
          simpa using hlt j2 hj2 (Nat.lt_of_succ_lt_succ hji)

lemma mem_sampleCurvatures_bounds (C : Controller) (κ : ℝ)
    (h : κ ∈ sampleCurvatures C) :
    -C.car.max_curvature ≤ κ ∧ κ ≤ C.car.max_curvature := by
  unfold sampleCurvatures at h
  split_ifs at h with hg
  · obtain ⟨hΔ, hκm⟩ := hg
    obtain ⟨i, hi, rfl⟩ := List.mem_map.mp h
    have hi1 := List.mem_range.mp hi
    have hi2 : i ≤ Nat.floor (2 * C.car.max_curvature / C.curvature_sampling_interval) :=
      Nat.lt_succ_iff.mp hi1
    constructor
    · have h0 : 0 ≤ (i : ℝ) * C.curvature_sampling_interval := by positivity
      linarith
    · have h3 : (i : ℝ) ≤
          (Nat.floor (2 * C.car.max_curvature / C.curvature_sampling_interval) : ℝ) := by
        exact_mod_cast hi2
      have h4 : (Nat.floor (2 * C.car.max_curvature / C.curvature_sampling_interval) : ℝ) ≤
          2 * C.car.max_curvature / C.curvature_sampling_interval :=
        Nat.floor_le (by positivity)
      have h5 : (i : ℝ) * C.curvature_sampling_interval ≤ 2 * C.car.max_curvature := by
        have h6 := mul_le_mul_of_nonneg_right (le_trans h3 h4) (le_of_lt hΔ)
        rwa [div_mul_cancel₀ _ (ne_of_gt hΔ)] at h6
      linarith
  · simp at h

lemma calculateControlSpeed_bounds (C : Controller) (hv : 0 ≤ C.car.max_speed)
    (current_speed fpl : ℝ) :
    0 ≤ calculateControlSpeed C current_speed fpl ∧
    calculateControlSpeed C current_speed fpl ≤ C.car.max_speed := by
  simp only [calculateControlSpeed]
  split_ifs <;> constructor <;> linarith

lemma evaluatePaths_curvature_bounds (C : Controller) (hκ : 0 ≤ C.car.max_curvature)
    (cloud : List (ℝ × ℝ)) :
    |(evaluatePaths C cloud).curvature| ≤ C.car.max_curvature := by
  rcases foldl_select_mem (candidateList C cloud) sentinelCandidate with h | h
  · unfold evaluatePaths
    rw [h]
    simpa [sentinelCandidate] using hκ
  · obtain ⟨κ, hκmem, hmk⟩ := List.mem_map.mp h
    have hcur : (evaluatePaths C cloud).curvature = κ := by
      unfold evaluatePaths
      rw [show (candidateList C cloud).foldl selectStep sentinelCandidate =
        mkCandidate C cloud κ from hmk.symm]
      simp [mkCandidate]
    rw [hcur]
    obtain ⟨h1, h2⟩ := mem_sampleCurvatures_bounds C κ hκmem
    exact abs_le.mpr ⟨h1, h2⟩

/-- C1: for every point cloud and every current speed, the command returned by
the sampler's `generateCommand` has velocity inside `[0, max_speed]` and
curvature of absolute value at most `max_curvature` (parameters as in the data
model: nonnegative speed and curvature limits). -/
theorem C1_command_within_limits (C : Controller)
    (hv : 0 ≤ C.car.max_speed) (hκ : 0 ≤ C.car.max_curvature)
    (cloud : List (ℝ × ℝ)) (current_speed : ℝ) :
    0 ≤ (generateCommand C cloud current_speed).velocity ∧
    (generateCommand C cloud current_speed).velocity ≤ C.car.max_speed ∧
    |(generateCommand C cloud current_speed).curvature| ≤ C.car.max_curvature := by
  have hvel := calculateControlSpeed_bounds C hv current_speed
    (evaluatePaths C cloud).free_path_length
  have hcurv := evaluatePaths_curvature_bounds C hκ cloud
  have h1 : (generateCommand C cloud current_speed).velocity =
      calculateControlSpeed C current_speed (evaluatePaths C cloud).free_path_length := rfl
  have h2 : (generateCommand C cloud current_speed).curvature =
      (evaluatePaths C cloud).curvature := rfl
  rw [h1, h2]
  exact ⟨hvel.1, hvel.2, hcurv⟩

/-- Witness for C1 at the spec scenario parameters, the empty cloud and
current speed zero. -/
theorem C1_command_within_limits_witness :
    0 ≤ specTOC.car.max_speed ∧ 0 ≤ specTOC.car.max_curvature ∧
      (0 ≤ (generateCommand specTOC [] 0).velocity ∧
       (generateCommand specTOC [] 0).velocity ≤ specTOC.car.max_speed ∧
       |(generateCommand specTOC [] 0).curvature| ≤ specTOC.car.max_curvature) :=
  ⟨by norm_num [specTOC, specCar], by norm_num [specTOC, specCar],
   C1_command_within_limits specTOC (by norm_num [specTOC, specCar])
     (by norm_num [specTOC, specCar]) [] 0⟩

lemma fplArcStep_fst (C : Controller) (curvature radius : ℝ) (st : ℝ × ℝ) (p : ℝ × ℝ) :
    (fplArcStep C curvature radius st p).1 = fplArcStepConds12 C curvature radius st.1 p := by
  simp only [fplArcStep, fplArcStepConds12, apply_ite Prod.fst]

lemma fplArc_foldl_fst (C : Controller) (curvature radius : ℝ) (cloud : List (ℝ × ℝ)) :
    ∀ st : ℝ × ℝ,
      (cloud.foldl (fplArcStep C curvature radius) st).1 =
        cloud.foldl (fplArcStepConds12 C curvature radius) st.1 := by
  induction cloud with
  | nil => intro st; rfl
  | cons p t ih =>
    intro st
    rw [List.foldl_cons, List.foldl_cons, ih (fplArcStep C curvature radius st p),
      fplArcStep_fst]

/-- C2: for every point cloud and every curvature of magnitude at least
`0.01`, the condition-three (outer rear strike) branch never changes the
returned free path length: the result coincides with what conditions one and
two alone produce. -/
theorem C2_condition_three_dead (C : Controller) (cloud : List (ℝ × ℝ)) (κ : ℝ)
    (h : 0.01 ≤ |κ|) :
    calculateFreePathLength C cloud κ = calculateFreePathLengthConds12 C cloud κ := by
  simp only [calculateFreePathLength, calculateFreePathLengthConds12]
  rw [if_neg (not_lt.mpr h), if_neg (not_lt.mpr h)]
  exact fplArc_foldl_fst C κ _ cloud _

/-- Witness for C2 at curvature `1` on a one-point cloud. -/
theorem C2_condition_three_dead_witness :
    (0.01 : ℝ) ≤ |(1 : ℝ)| ∧
      calculateFreePathLength specTOC [((4 : ℝ) / 5, 0)] 1 =
        calculateFreePathLengthConds12 specTOC [((4 : ℝ) / 5, 0)] 1 :=
  ⟨by norm_num, C2_condition_three_dead specTOC [((4 : ℝ) / 5, 0)] 1 (by norm_num)⟩

lemma ite_lt_eq_min (x y : ℝ) : (if x < y then x else y) = min x y := by
  split_ifs with h
  · exact (min_eq_left h.le).symm
  · exact (min_eq_right (le_of_not_lt h)).symm

lemma straightFPLSeed_cons (C : Controller) (p : ℝ × ℝ) (t : List (ℝ × ℝ)) (a : ℝ) :
    straightFPLSeed C (p :: t) a =
      if |p.2| < C.car.width / 2 + C.margin ∧ 0 < p.1 then
        min (p.1 - (C.margin + (C.car.length + C.car.wheelbase) / 2)) (straightFPLSeed C t a)
      else straightFPLSeed C t a := rfl

lemma straightFPLSeed_min (C : Controller) (cloud : List (ℝ × ℝ)) (v a : ℝ) :
    straightFPLSeed C cloud (min v a) = min v (straightFPLSeed C cloud a) := by
  induction cloud with
  | nil => rfl
  | cons p t ih =>
    rw [straightFPLSeed_cons, straightFPLSeed_cons, ih]
    split_ifs
    · rw [min_left_comm]
    · rfl

lemma straight_foldl_eq_seed (C : Controller) (cloud : List (ℝ × ℝ)) :
    ∀ a : ℝ, cloud.foldl (fplStraightStep C) a = straightFPLSeed C cloud a := by
  induction cloud with
  | nil => intro a; rfl
  | cons p t ih =>
    intro a
    have hstep : fplStraightStep C a p =
        if |p.2| < C.car.width / 2 + C.margin ∧ 0 < p.1 then
          min (p.1 - (C.margin + (C.car.length + C.car.wheelbase) / 2)) a
        else a := by
      simp only [fplStraightStep]
      split_ifs with h1 h2
      · exact (min_eq_left h2.le).symm
      · exact (min_eq_right (le_of_not_lt h2)).symm
      · rfl
    rw [List.foldl_cons, hstep, straightFPLSeed_cons]
    split_ifs with hc
    · rw [ih, straightFPLSeed_min]
    · exact ih a

/-- Counterexample to C3 as stated: with the spec-scenario parameters, the
single point `(0.1, 0)` on the straight arc yields the negative free path
length `-9/25 = -0.36`; the code does not clamp the result at zero. -/
theorem C3_counterexample :
    calculateFreePathLength specTOC [((1 : ℝ) / 10, 0)] 0 = -(9 / 25) ∧
      ¬ (0 ≤ calculateFreePathLength specTOC [((1 : ℝ) / 10, 0)] 0) := by
  have h : calculateFreePathLength specTOC [((1 : ℝ) / 10, 0)] 0 = -(9 / 25) := by
    norm_num [calculateFreePathLength, fplStraightStep, List.foldl, specTOC, specCar]
  exact ⟨h, by rw [h]; norm_num⟩

/-- C3 amended: for every cloud and every curvature of magnitude below
`0.01`, the free path length equals the spec formula
`min(10 - (m + (L+b)/2), min over points with |py| < w/2 + m and px > 0 of
px - (m + (L+b)/2))` — with no flooring at zero. -/
theorem C3_straight_fpl_formula (C : Controller) (cloud : List (ℝ × ℝ)) (κ : ℝ)
    (h : |κ| < 0.01) :
    calculateFreePathLength C cloud κ = straightFPLSpec C cloud := by
  simp only [calculateFreePathLength, straightFPLSpec]
  rw [if_pos h]
  exact straight_foldl_eq_seed C cloud _

/-- Witness for the amended C3 at curvature `0` on the counterexample cloud. -/
theorem C3_straight_fpl_formula_witness :
    |(0 : ℝ)| < 0.01 ∧
      calculateFreePathLength specTOC [((1 : ℝ) / 10, 0)] 0 =
        straightFPLSpec specTOC [((1 : ℝ) / 10, 0)] :=
  ⟨by norm_num, C3_straight_fpl_formula specTOC [((1 : ℝ) / 10, 0)] 0 (by norm_num)⟩

lemma foldl_le_init {α : Type} (f : ℝ → α → ℝ) (hf : ∀ a p, f a p ≤ a) :
    ∀ (l : List α) (a : ℝ), l.foldl f a ≤ a := by
  intro l
  induction l with
  | nil => intro a; exact le_rfl
  | cons p t ih =>
    intro a
    rw [List.foldl_cons]
    exact le_trans (ih (f a p)) (hf a p)

lemma clearStraightStep_le (C : Controller) (fpl mc : ℝ) (p : ℝ × ℝ) :
    clearStraightStep C fpl mc p ≤ mc := by
  simp only [clearStraightStep]
  split_ifs <;> linarith

lemma clearArcStep_le (C : Controller) (curvature radius fpl mc : ℝ) (p : ℝ × ℝ) :
    clearArcStep C curvature radius fpl mc p ≤ mc := by
  simp only [clearArcStep]
  split_ifs <;> linarith

/-- Counterexample to C4 as stated: with the spec-scenario parameters, the
point `(0, 0.19)` on the straight arc yields the clearance `-1/50 = -0.02`;
the code does not floor the clearance at zero. -/
theorem C4_counterexample :
    calculateClearance specTOC [(0, (19 : ℝ) / 100)] 0 1 = -(1 / 50) ∧
      ¬ (0 ≤ calculateClearance specTOC [(0, (19 : ℝ) / 100)] 0 1) := by
  have habs : |(19 : ℝ) / 100| = 19 / 100 := abs_of_nonneg (by norm_num)
  have h : calculateClearance specTOC [(0, (19 : ℝ) / 100)] 0 1 = -(1 / 50) := by
    norm_num [calculateClearance, clearStraightStep, List.foldl, specTOC, specCar, habs]
  exact ⟨h, by rw [h]; norm_num⟩

/-- C4 amended: for every point cloud, curvature and free path length the
returned clearance is capped at `max_clearance` (it is not floored at zero
and can be negative, as the counterexample shows). -/
theorem C4_clearance_capped (C : Controller) (cloud : List (ℝ × ℝ)) (curvature fpl : ℝ) :
    calculateClearance C cloud curvature fpl ≤ C.max_clearance := by
  simp only [calculateClearance]
  split_ifs
  · exact foldl_le_init _ (clearStraightStep_le C fpl) cloud _
  all_goals exact foldl_le_init _ (clearArcStep_le C curvature _ fpl) cloud _

/-- Counterexample to C6 as stated: for the out-of-range input speed `-10`
(and free path length `0`) the emitted speed is clamped to `0`, so the speed
change is `10`, far above `a_max * dt` plus any small tolerance. -/
theorem C6_counterexample :
    calculateControlSpeed specTOC (-10) 0 = 0 ∧
      4 * (0.05 : ℝ) + 1 < |calculateControlSpeed specTOC (-10) 0 - (-10)| := by
  have h : calculateControlSpeed specTOC (-10) 0 = 0 := by
    norm_num [calculateControlSpeed, specTOC, specCar]
  refine ⟨h, ?_⟩
  rw [h]
  have h2 : |(0 : ℝ) - (-10)| = 10 := by
    rw [abs_of_nonneg] <;> norm_num
  rw [h2]
  norm_num

/-- C6 amended: for every free path length and every input speed already in
the admissible range `[0, max_speed]`, the emitted speed differs from the
input speed by at most `max_acceleration * control_interval` plus the snap
tolerance `0.05`. -/
theorem C6_rate_limited (C : Controller) (current_speed fpl : ℝ)
    (ha : 0 ≤ C.car.max_acceleration) (ht : 0 ≤ C.control_interval)
    (h0 : 0 ≤ current_speed) (h1 : current_speed ≤ C.car.max_speed) :
    |calculateControlSpeed C current_speed fpl - current_speed| ≤
      C.car.max_acceleration * C.control_interval + 0.05 := by
  have hat : 0 ≤ C.car.max_acceleration * C.control_interval := mul_nonneg ha ht
  simp only [calculateControlSpeed]
  rw [abs_le]
  constructor <;> split_ifs <;> linarith

/-- Witness for the amended C6 at the spec scenario, speed `0.5`, free path
length `1`. -/
theorem C6_rate_limited_witness :
    0 ≤ specTOC.car.max_acceleration ∧ 0 ≤ specTOC.control_interval ∧
      0 ≤ (0.5 : ℝ) ∧ (0.5 : ℝ) ≤ specTOC.car.max_speed ∧
      |calculateControlSpeed specTOC 0.5 1 - 0.5| ≤
        specTOC.car.max_acceleration * specTOC.control_interval + 0.05 :=
  ⟨by norm_num [specTOC, specCar], by norm_num [specTOC],
   by norm_num, by norm_num [specTOC, specCar],
   C6_rate_limited specTOC 0.5 1 (by norm_num [specTOC, specCar])
     (by norm_num [specTOC]) (by norm_num) (by norm_num [specTOC, specCar])⟩

lemma specSamples_eq :
    sampleCurvatures specTOC = (List.range 41).map (fun i : ℕ => -1 + (i : ℝ) * 0.05) := by
  unfold sampleCurvatures
  rw [if_pos (by norm_num [specTOC, specCar])]
  have h41 : Nat.floor (2 * specTOC.car.max_curvature / specTOC.curvature_sampling_interval)
      + 1 = 41 := by
    have h40 : 2 * specTOC.car.max_curvature / specTOC.curvature_sampling_interval
        = (40 : ℝ) := by
      norm_num [specTOC, specCar]
    rw [h40]
    norm_num
  rw [h41]
  simp only [specTOC, specCar]

lemma specSamples_cases (κ : ℝ) (h : κ ∈ sampleCurvatures specTOC) :
    κ = 0 ∨ (1 / 20 ≤ |κ| ∧ |κ| ≤ 1) := by
  rw [specSamples_eq] at h
  obtain ⟨i, hi, rfl⟩ := List.mem_map.mp h
  have hi41 : i < 41 := List.mem_range.mp hi
  by_cases h20 : i = 20
  · left
    rw [h20]
    norm_num
  · right
    have hile : (i : ℝ) ≤ 40 := by exact_mod_cast Nat.lt_succ_iff.mp hi41
    have hige : (0 : ℝ) ≤ (i : ℝ) := Nat.cast_nonneg i
    constructor
    · rcases Nat.lt_or_ge i 20 with hlt | hge
      · have h19 : (i : ℝ) ≤ 19 := by exact_mod_cast Nat.lt_succ_iff.mp hlt
        rw [le_abs]
        right
        linarith
      · have h21 : 21 ≤ i := by omega
        have h21r : (21 : ℝ) ≤ (i : ℝ) := by exact_mod_cast h21
        rw [le_abs]
        left
        linarith
    · rw [abs_le]
      constructor <;> linarith

lemma radiusOf_pos (κ : ℝ) (h : κ ≠ 0) : 0 < radiusOf κ := by
  unfold radiusOf
  split_ifs with hneg
  · exact neg_pos.mpr (one_div_neg.mpr hneg)
  · have h2 : 0 < κ := lt_of_le_of_ne (not_lt.mp hneg) (Ne.symm h)
    positivity

lemma radiusOf_le (κ : ℝ) (h : 1 / 20 ≤ |κ|) : radiusOf κ ≤ 20 := by
  unfold radiusOf
  split_ifs with hneg
  · have habs : |κ| = -κ := abs_of_neg hneg
    rw [habs] at h
    rw [show -(1 / κ) = 1 / (-κ) by rw [div_neg], show (20 : ℝ) = 1 / (1 / 20) by norm_num]
    exact one_div_le_one_div_of_le (by norm_num) h
  · have habs : |κ| = κ := abs_of_nonneg (not_lt.mp hneg)
    rw [habs] at h
    rw [show (20 : ℝ) = 1 / (1 / 20) by norm_num]
    exact one_div_le_one_div_of_le (by norm_num) h

lemma foldl_lb {α : Type} (f : ℝ → α → ℝ) (B : ℝ) (hf : ∀ a p, B ≤ a → B ≤ f a p) :
    ∀ (l : List α) (a : ℝ), B ≤ a → B ≤ l.foldl f a := by
  intro l
  induction l with
  | nil => intro a ha; exact ha
  | cons p t ih =>
    intro a ha
    rw [List.foldl_cons]
    exact ih (f a p) (hf a p ha)

lemma straightFPLSeed_lb (C : Controller) (cloud : List (ℝ × ℝ)) (a : ℝ)
    (ha : -(C.margin + (C.car.length + C.car.wheelbase) / 2) ≤ a) :
    -(C.margin + (C.car.length + C.car.wheelbase) / 2) ≤ straightFPLSeed C cloud a := by
  induction cloud with
  | nil => exact ha
  | cons p t ih =>
    rw [straightFPLSeed_cons]
    split_ifs with hc
    · exact le_min (by linarith [hc.2]) ih
    · exact ih

lemma calcFPL_straight_lb (C : Controller) (cloud : List (ℝ × ℝ)) (κ : ℝ)
    (h : |κ| < 0.01) :
    -(C.margin + (C.car.length + C.car.wheelbase) / 2) ≤
      calculateFreePathLength C cloud κ := by
  simp only [calculateFreePathLength]
  rw [if_pos h, straight_foldl_eq_seed]
  exact straightFPLSeed_lb C cloud _ (by linarith)

lemma atan2_le_pi (y x : ℝ) : atan2 y x ≤ Real.pi := Complex.arg_le_pi _

lemma fplArcStepConds12_lb (C : Controller) (curvature radius : ℝ) (hrad : 0 < radius)
    (fpl : ℝ) (p : ℝ × ℝ) (h : -(radius * Real.pi) ≤ fpl) :
    -(radius * Real.pi) ≤ fplArcStepConds12 C curvature radius fpl p := by
  have key : ∀ t : ℝ, -Real.pi ≤ t → -(radius * Real.pi) ≤ radius * t := by
    intro t ht
    calc -(radius * Real.pi) = radius * (-Real.pi) := by ring
    _ ≤ radius * t := mul_le_mul_of_nonneg_left ht hrad.le
  simp only [fplArcStepConds12]
  split_ifs with h1 h2 h3 h4 h5 h6 <;> try exact h
  · exact key _ (by
      linarith [h3.2.2, Real.arccos_le_pi (inside_rear_axle_radius C radius /
        point_radius_of radius p (adjY curvature p))])
  · exact key _ (by
      linarith [h5.2.2, Real.pi_nonneg,
        Real.arcsin_le_pi_div_two ((C.margin + (C.car.length + C.car.wheelbase) / 2) /
          point_radius_of radius p (adjY curvature p))])

lemma calcFPL_arc_lb (C : Controller) (cloud : List (ℝ × ℝ)) (κ : ℝ)
    (hκ : ¬ |κ| < 0.01) (hrad : 0 < radiusOf κ)
    (hinit : -(radiusOf κ * Real.pi) ≤
      10 - (C.margin + (C.car.length + C.car.wheelbase) / 2)) :
    -(radiusOf κ * Real.pi) ≤ calculateFreePathLength C cloud κ := by
  simp only [calculateFreePathLength]
  rw [if_neg hκ, fplArc_foldl_fst]
  exact foldl_lb _ _ (fun a p ha => fplArcStepConds12_lb C κ _ hrad a p ha) cloud _ hinit

lemma clearStraightStep_lb (C : Controller) (B fpl mc : ℝ) (p : ℝ × ℝ) (hmc : B ≤ mc)
    (hB : B ≤ C.car.width / 2 - C.car.wheelbase / 2) :
    B ≤ clearStraightStep C fpl mc p := by
  simp only [clearStraightStep]
  split_ifs with h1 h2 <;> try exact hmc
  linarith [h1.1.1]

lemma clearArcStep_eq (C : Controller) (curvature radius fpl mc : ℝ) (p : ℝ × ℝ) :
    clearArcStep C curvature radius fpl mc p =
      if (0 ≤ atan2 p.1 (radius - adjY curvature p) ∧
          atan2 p.1 (radius - adjY curvature p) ≤ fpl / radius) ∧
         (radius - C.car.width / 2 - C.margin - C.max_clearance ≤
            point_radius_of radius p (adjY curvature p) ∧
          point_radius_of radius p (adjY curvature p) ≤
            radius + C.car.width / 2 + C.margin + C.max_clearance) then
        (if |point_radius_of radius p (adjY curvature p) *
              Real.cos (atan2 p.1 (radius - adjY curvature p)) - radius| -
              C.car.width / 2 - C.margin < mc then
           |point_radius_of radius p (adjY curvature p) *
              Real.cos (atan2 p.1 (radius - adjY curvature p)) - radius| -
              C.car.width / 2 - C.margin
         else mc)
      else mc := by
  simp only [clearArcStep]
  rw [if_neg]
  intro hbad
  obtain ⟨_, _, hdiv⟩ := hbad
  revert hdiv
  split_ifs <;> norm_num

lemma clearArcStep_lb (C : Controller) (curvature radius fpl B mc : ℝ) (p : ℝ × ℝ)
    (hmc : B ≤ mc) (hB1 : B ≤ -(C.car.width / 2) - C.margin) :
    B ≤ clearArcStep C curvature radius fpl mc p := by
  rw [clearArcStep_eq]
  have habs : 0 ≤ |point_radius_of radius p (adjY curvature p) *
      Real.cos (atan2 p.1 (radius - adjY curvature p)) - radius| := abs_nonneg _
  split_ifs <;> first
  | exact hmc
  | linarith

lemma calculateClearance_lb (C : Controller) (cloud : List (ℝ × ℝ)) (κ fpl B : ℝ)
    (hBmc : B ≤ C.max_clearance)
    (hBs : B ≤ C.car.width / 2 - C.car.wheelbase / 2)
    (hB1 : B ≤ -(C.car.width / 2) - C.margin) :
    B ≤ calculateClearance C cloud κ fpl := by
  simp only [calculateClearance]
  split_ifs
  · exact foldl_lb _ B (fun a p ha => clearStraightStep_lb C B fpl a p ha hBs) cloud _ hBmc
  · exact foldl_lb _ B (fun a p ha => clearArcStep_lb C κ _ fpl B a p ha hB1) cloud _ hBmc

lemma abs_sub_le_abs_add_abs (a b : ℝ) : |a - b| ≤ |a| + |b| := by
  rw [sub_eq_add_neg]
  exact le_trans (abs_add a (-b)) (by rw [abs_neg])

lemma sqrt_sq_add_sq_le (a b : ℝ) : Real.sqrt (a ^ 2 + b ^ 2) ≤ |a| + |b| := by
  rw [show |a| + |b| = Real.sqrt ((|a| + |b|) ^ 2) from
    (Real.sqrt_sq (by positivity)).symm]
  apply Real.sqrt_le_sqrt
  nlinarith [sq_abs a, sq_abs b, mul_nonneg (abs_nonneg a) (abs_nonneg b)]

lemma calcDist_nonneg (C : Controller) (κ : ℝ) : 0 ≤ calculateDistanceToGoal C κ := by
  simp only [calculateDistanceToGoal]
  split_ifs <;> exact Real.sqrt_nonneg _

lemma abs_sin_le_one' (x : ℝ) : |Real.sin x| ≤ 1 :=
  abs_le.mpr ⟨Real.neg_one_le_sin x, Real.sin_le_one x⟩

lemma abs_one_sub_cos_le_two (x : ℝ) : |1 - Real.cos x| ≤ 2 :=
  abs_le.mpr ⟨by linarith [Real.cos_le_one x], by linarith [Real.neg_one_le_cos x]⟩

lemma calcDist_ub_spec (κ : ℝ) (h : κ = 0 ∨ (1 / 20 ≤ |κ| ∧ |κ| ≤ 1)) :
    calculateDistanceToGoal specTOC κ ≤ 70 := by
  rcases h with rfl | ⟨hlo, hhi⟩
  · simp only [calculateDistanceToGoal]
    rw [if_pos (by norm_num)]
    refine le_trans (sqrt_sq_add_sq_le _ _) ?_
    have h1 : |(10 : ℝ) - specTOC.car.max_speed * specTOC.control_interval| =
        10 - specTOC.car.max_speed * specTOC.control_interval :=
      abs_of_nonneg (by norm_num [specTOC, specCar])
    rw [h1]
    norm_num [specTOC, specCar]
  · have hκ0 : κ ≠ 0 := by
      intro h0
      rw [h0] at hlo
      norm_num at hlo
    simp only [calculateDistanceToGoal]
    rw [if_neg (not_lt.mpr (by linarith))]
    refine le_trans (sqrt_sq_add_sq_le _ _) ?_
    have hRabs : |1 / κ| ≤ 20 := by
      rw [abs_one_div, show (20 : ℝ) = 1 / (1 / 20) by norm_num]
      exact one_div_le_one_div_of_le (by norm_num) hlo
    set φ := specTOC.car.max_speed * specTOC.control_interval / (1 / κ) with hφ
    have hterm1 : |(10 : ℝ) - 1 / κ * Real.sin φ| ≤ 30 := by
      refine le_trans (abs_sub_le_abs_add_abs _ _) ?_
      have h1 : |1 / κ * Real.sin φ| = |1 / κ| * |Real.sin φ| := abs_mul _ _
      have h2 : |1 / κ| * |Real.sin φ| ≤ 20 * 1 :=
        mul_le_mul hRabs (abs_sin_le_one' φ) (abs_nonneg _) (by norm_num)
      have h3 : |(10 : ℝ)| = 10 := by norm_num
      linarith [h1, h2, h3]
    have hterm2 : |(0 : ℝ) - (1 / κ - 1 / κ * Real.cos φ)| ≤ 40 := by
      rw [zero_sub, abs_neg, show 1 / κ - 1 / κ * Real.cos φ = 1 / κ * (1 - Real.cos φ)
        by ring, abs_mul]
      calc |1 / κ| * |1 - Real.cos φ| ≤ 20 * 2 :=
        mul_le_mul hRabs (abs_one_sub_cos_le_two φ) (abs_nonneg _) (by norm_num)
      _ ≤ 40 := by norm_num
    linarith

lemma mkCandidate_score_lb (cloud : List (ℝ × ℝ)) (κ : ℝ)
    (h : κ = 0 ∨ (1 / 20 ≤ |κ| ∧ |κ| ≤ 1)) :
    -100 < (mkCandidate specTOC cloud κ).score := by
  have hcl : -(19 / 100 : ℝ) ≤ calculateClearance specTOC cloud κ
      (calculateFreePathLength specTOC cloud κ) := by
    apply calculateClearance_lb <;> norm_num [specTOC, specCar]
  have hgd0 : 0 ≤ calculateDistanceToGoal specTOC κ := calcDist_nonneg specTOC κ
  have hgd : calculateDistanceToGoal specTOC κ ≤ 70 := calcDist_ub_spec κ h
  have hfpl : -(63 : ℝ) ≤ calculateFreePathLength specTOC cloud κ := by
    rcases h with rfl | ⟨hlo, hhi⟩
    · have hstr := calcFPL_straight_lb specTOC cloud 0 (by norm_num)
      have hoff : -(specTOC.margin + (specTOC.car.length + specTOC.car.wheelbase) / 2) =
          -(46 / 100 : ℝ) := by norm_num [specTOC, specCar]
      rw [hoff] at hstr
      linarith
    · have hκ0 : κ ≠ 0 := by
        intro h0
        rw [h0] at hlo
        norm_num at hlo
      have hrad := radiusOf_pos κ hκ0
      have hrle := radiusOf_le κ hlo
      have hpos : 0 ≤ radiusOf κ * Real.pi := mul_nonneg hrad.le Real.pi_nonneg
      have hpi : Real.pi < 3.15 := Real.pi_lt_d2
      have hbound : radiusOf κ * Real.pi ≤ 63 := by nlinarith [Real.pi_nonneg]
      have harc := calcFPL_arc_lb specTOC cloud κ (not_lt.mpr (by linarith)) hrad (by
        have hoff : 10 - (specTOC.margin +
            (specTOC.car.length + specTOC.car.wheelbase) / 2) = (954 / 100 : ℝ) := by
          norm_num [specTOC, specCar]
        rw [hoff]
        linarith)
      linarith
  simp only [mkCandidate]
  linarith

/-- C5: with the spec-scenario parameters, for every point cloud: the sampled
curvatures are exactly `-1 + i * 0.05` for `i = 0, ..., 40`; the candidate
list maps the sampler over them; every real candidate's score strictly
exceeds the sentinel's `-100` (so the sentinel is replaced); and the returned
candidate is an enumerated one whose score is maximal, every earlier
enumerated candidate scoring strictly less (strict greater-than selection, so
exact ties keep the first-seen, most negative, curvature). -/
theorem C5_selection_first_max (cloud : List (ℝ × ℝ)) :
    sampleCurvatures specTOC = (List.range 41).map (fun i : ℕ => -1 + (i : ℝ) * 0.05) ∧
    candidateList specTOC cloud = (sampleCurvatures specTOC).map (mkCandidate specTOC cloud) ∧
    (∀ c ∈ candidateList specTOC cloud, sentinelCandidate.score < c.score) ∧
    ∃ (i : ℕ) (hi : i < (candidateList specTOC cloud).length),
      evaluatePaths specTOC cloud = (candidateList specTOC cloud).get ⟨i, hi⟩ ∧
      (∀ (j : ℕ) (hj : j < (candidateList specTOC cloud).length),
        ((candidateList specTOC cloud).get ⟨j, hj⟩).score ≤
          (evaluatePaths specTOC cloud).score) ∧
      (∀ (j : ℕ) (hj : j < (candidateList specTOC cloud).length), j < i →
        ((candidateList specTOC cloud).get ⟨j, hj⟩).score <
          (evaluatePaths specTOC cloud).score) := by
  have hscore : ∀ c ∈ candidateList specTOC cloud, sentinelCandidate.score < c.score := by
    intro c hc
    obtain ⟨κ, hκ, rfl⟩ := List.mem_map.mp hc
    have := mkCandidate_score_lb cloud κ (specSamples_cases κ hκ)
    simpa [sentinelCandidate] using this
  have hlen : (candidateList specTOC cloud).length = 41 := by
    rw [candidateList, List.length_map, specSamples_eq, List.length_map, List.length_range]
  have hex : ∃ c ∈ candidateList specTOC cloud, sentinelCandidate.score < c.score := by
    have hmem := List.get_mem (candidateList specTOC cloud) 0 (by rw [hlen]; norm_num)
    exact ⟨_, hmem, hscore _ hmem⟩
  obtain ⟨i, hi, heq, hlt⟩ := foldl_select_firstMax (candidateList specTOC cloud)
    sentinelCandidate hex
  have hfold : evaluatePaths specTOC cloud =
      (candidateList specTOC cloud).foldl selectStep sentinelCandidate := rfl
  refine ⟨specSamples_eq, rfl, hscore, i, hi, by rw [hfold]; exact heq, ?_, ?_⟩
  · intro j hj
    rw [hfold]
    exact foldl_select_le_score (candidateList specTOC cloud) sentinelCandidate _
      (List.get_mem _ j hj)
  · intro j hj hji
    rw [hfold]
    exact hlt j hj hji

lemma adjY_reflect (κ : ℝ) (hκ : κ ≠ 0) (p : ℝ × ℝ) :
    adjY κ (p.1, -p.2) = adjY (-κ) p := by
  unfold adjY
  rcases lt_trichotomy κ 0 with h | h | h
  · rw [if_pos h, if_neg (not_lt.mpr (by linarith : (0 : ℝ) ≤ -κ))]
    simp
  · exact absurd h hκ
  · rw [if_neg (not_lt.mpr h.le), if_pos (by linarith : -κ < 0)]

lemma radiusOf_neg (κ : ℝ) : radiusOf (-κ) = radiusOf κ := by
  unfold radiusOf
  rcases lt_trichotomy κ 0 with h | h | h
  · rw [if_neg (not_lt.mpr (by linarith : (0 : ℝ) ≤ -κ)), if_pos h, div_neg]
  · rw [h, neg_zero]
  · rw [if_pos (by linarith : -κ < 0), if_neg (not_lt.mpr h.le), div_neg, neg_neg]

lemma fplStraightStep_reflect (C : Controller) (a : ℝ) (p : ℝ × ℝ) :
    fplStraightStep C a (p.1, -p.2) = fplStraightStep C a p := by
  simp only [fplStraightStep, abs_neg]

lemma clearStraightStep_reflect (C : Controller) (fpl mc : ℝ) (p : ℝ × ℝ) :
    clearStraightStep C fpl mc (p.1, -p.2) = clearStraightStep C fpl mc p := by
  simp only [clearStraightStep, abs_neg]

lemma point_radius_of_reflect (radius : ℝ) (p : ℝ × ℝ) (py : ℝ) :
    point_radius_of radius (p.1, -p.2) py = point_radius_of radius p py := rfl

lemma fplArcStep_reflect (C : Controller) (κ radius : ℝ) (hκ : κ ≠ 0)
    (st : ℝ × ℝ) (p : ℝ × ℝ) :
    fplArcStep C κ radius st (p.1, -p.2) = fplArcStep C (-κ) radius st p := by
  simp only [fplArcStep, adjY_reflect κ hκ p, point_radius_of_reflect]

lemma clearArcStep_reflect (C : Controller) (κ radius fpl mc : ℝ) (hκ : κ ≠ 0)
    (p : ℝ × ℝ) :
    clearArcStep C κ radius fpl mc (p.1, -p.2) = clearArcStep C (-κ) radius fpl mc p := by
  simp only [clearArcStep, adjY_reflect κ hκ p, point_radius_of_reflect]

lemma calcFPL_reflect (C : Controller) (cloud : List (ℝ × ℝ)) (κ : ℝ) :
    calculateFreePathLength C (reflectCloud cloud) κ =
      calculateFreePathLength C cloud (-κ) := by
  by_cases hs : |κ| < 0.01
  · simp only [calculateFreePathLength]
    rw [if_pos hs, if_pos (by rwa [abs_neg])]
    unfold reflectCloud
    rw [List.foldl_map]
    apply List.foldl_ext
    intro a p hp
    exact fplStraightStep_reflect C a p
  · have hκ0 : κ ≠ 0 := by
      intro h0
      rw [h0] at hs
      norm_num at hs
    simp only [calculateFreePathLength]
    rw [if_neg hs, if_neg (by rwa [abs_neg]), radiusOf_neg]
    unfold reflectCloud
    rw [List.foldl_map]
    congr 1
    apply List.foldl_ext
    intro st p hp
    exact fplArcStep_reflect C κ _ hκ0 st p

lemma calcClear_reflect (C : Controller) (cloud : List (ℝ × ℝ)) (κ fpl : ℝ) :
    calculateClearance C (reflectCloud cloud) κ fpl =
      calculateClearance C cloud (-κ) fpl := by
  by_cases hs : |κ| < 0.01
  · simp only [calculateClearance]
    rw [if_pos hs, if_pos (by rwa [abs_neg])]
    unfold reflectCloud
    rw [List.foldl_map]
    apply List.foldl_ext
    intro a p hp
    exact clearStraightStep_reflect C fpl a p
  · have hκ0 : κ ≠ 0 := by
      intro h0
      rw [h0] at hs
      norm_num at hs
    simp only [calculateClearance]
    rw [if_neg hs, if_neg (by rwa [abs_neg]), radiusOf_neg]
    unfold reflectCloud
    rw [List.foldl_map]
    apply List.foldl_ext
    intro a p hp
    exact clearArcStep_reflect C κ _ fpl a hκ0 p

lemma calcDist_neg (C : Controller) (κ : ℝ) :
    calculateDistanceToGoal C (-κ) = calculateDistanceToGoal C κ := by
  by_cases hs : |κ| < 0.01
  · simp only [calculateDistanceToGoal]
    rw [if_pos hs, if_pos (by rwa [abs_neg])]
  · simp only [calculateDistanceToGoal]
    rw [if_neg (by rwa [abs_neg]), if_neg hs]
    have h1 : (1 : ℝ) / -κ = -(1 / κ) := div_neg 1
    rw [h1]
    congr 1
    have h2 : C.car.max_speed * C.control_interval / -(1 / κ) =
        -(C.car.max_speed * C.control_interval / (1 / κ)) :=
      div_neg _
    rw [h2, Real.sin_neg, Real.cos_neg]
    ring

lemma mkCandidate_curv (C : Controller) (cloud : List (ℝ × ℝ)) (κ : ℝ) :
    (mkCandidate C cloud κ).curvature = κ := rfl

lemma mkCandidate_reflect_fpl (C : Controller) (cloud : List (ℝ × ℝ)) (κ : ℝ) :
    (mkCandidate C (reflectCloud cloud) κ).free_path_length =
      (mkCandidate C cloud (-κ)).free_path_length := by
  simp only [mkCandidate]
  exact calcFPL_reflect C cloud κ

lemma mkCandidate_reflect_score (C : Controller) (cloud : List (ℝ × ℝ)) (κ : ℝ) :
    (mkCandidate C (reflectCloud cloud) κ).score = (mkCandidate C cloud (-κ)).score := by
  simp only [mkCandidate]
  rw [calcFPL_reflect, calcClear_reflect, calcDist_neg]

lemma samples_neg_mem (κ : ℝ) (h : κ ∈ sampleCurvatures specTOC) :
    -κ ∈ sampleCurvatures specTOC := by
  rw [specSamples_eq] at h ⊢
  obtain ⟨i, hi, rfl⟩ := List.mem_map.mp h
  have hi41 : i < 41 := List.mem_range.mp hi
  refine List.mem_map.mpr ⟨40 - i, List.mem_range.mpr (by omega), ?_⟩
  have hcast : ((40 - i : ℕ) : ℝ) = 40 - (i : ℝ) := by
    push_cast [Nat.cast_sub (by omega : i ≤ 40)]
    ring
  rw [hcast]
  ring

lemma evaluatePaths_eq_of_unique (cloud : List (ℝ × ℝ)) (κs : ℝ)
    (hmem : κs ∈ sampleCurvatures specTOC)
    (huniq : ∀ κ ∈ sampleCurvatures specTOC, κ ≠ κs →
      (mkCandidate specTOC cloud κ).score < (mkCandidate specTOC cloud κs).score) :
    evaluatePaths specTOC cloud = mkCandidate specTOC cloud κs := by
  have hmemc : mkCandidate specTOC cloud κs ∈ candidateList specTOC cloud :=
    List.mem_map_of_mem _ hmem
  have hle := foldl_select_le_score (candidateList specTOC cloud) sentinelCandidate _ hmemc
  have hsent : -100 < (mkCandidate specTOC cloud κs).score :=
    mkCandidate_score_lb cloud κs (specSamples_cases κs hmem)
  have hfold : evaluatePaths specTOC cloud =
      (candidateList specTOC cloud).foldl selectStep sentinelCandidate := rfl
  rcases foldl_select_mem (candidateList specTOC cloud) sentinelCandidate with hb | hb
  · exfalso
    rw [hb] at hle
    have : sentinelCandidate.score = -100 := rfl
    linarith
  · obtain ⟨κ2, hκ2, hbk⟩ := List.mem_map.mp hb
    by_cases heq : κ2 = κs
    · rw [hfold, ← hbk, heq]
    · exfalso
      have hlt := huniq κ2 hκ2 heq
      rw [← hbk] at hle
      linarith

lemma one_mem_specSamples : (1 : ℝ) ∈ sampleCurvatures specTOC := by
  rw [specSamples_eq]
  exact List.mem_map.mpr ⟨40, List.mem_range.mpr (by norm_num), by norm_num⟩

lemma zero_mem_specSamples : (0 : ℝ) ∈ sampleCurvatures specTOC := by
  rw [specSamples_eq]
  exact List.mem_map.mpr ⟨20, List.mem_range.mpr (by norm_num), by norm_num⟩

lemma cex_fpl0 : calculateFreePathLength specTOC [((4 : ℝ) / 5, 0)] 0 = 17 / 50 := by
  norm_num [calculateFreePathLength, fplStraightStep, List.foldl, specTOC, specCar]

lemma cex_cl0 : calculateClearance specTOC [((4 : ℝ) / 5, 0)] 0 (17 / 50) = 1 / 2 := by
  norm_num [calculateClearance, clearStraightStep, List.foldl, specTOC, specCar]

lemma cex_gd0 : calculateDistanceToGoal specTOC 0 = 199 / 20 := by
  simp only [calculateDistanceToGoal]
  rw [if_pos (by norm_num)]
  rw [show (10 - specTOC.car.max_speed * specTOC.control_interval) ^ 2 +
      ((0 : ℝ) - 0) ^ 2 = (199 / 20) ^ 2 by norm_num [specTOC, specCar]]
  exact Real.sqrt_sq (by norm_num)

lemma cex_score0 : (mkCandidate specTOC [((4 : ℝ) / 5, 0)] 0).score = -(127 / 200) := by
  simp only [mkCandidate]
  rw [cex_fpl0, cex_cl0, cex_gd0]
  norm_num

lemma cex_fpl1 : calculateFreePathLength specTOC [((4 : ℝ) / 5, 0)] 1 = 477 / 50 := by
  simp only [calculateFreePathLength]
  rw [if_neg (by norm_num)]
  have hrad : radiusOf 1 = 1 := by norm_num [radiusOf]
  rw [hrad, List.foldl_cons, List.foldl_nil]
  have hadj : adjY 1 ((4 : ℝ) / 5, 0) = 0 := by norm_num [adjY]
  have hirr : inside_rear_axle_radius specTOC 1 = 81 / 100 := by
    norm_num [inside_rear_axle_radius, specTOC, specCar]
  have hof : outside_front_corner_radius specTOC 1 = Real.sqrt (16277 / 10000) := by
    simp only [outside_front_corner_radius, specTOC, specCar]
    norm_num
  have hor : outside_rear_corner_radius specTOC 1 = Real.sqrt (14357 / 10000) := by
    simp only [outside_rear_corner_radius, specTOC, specCar]
    norm_num
  have hstep : fplArcStep specTOC 1 1
      (10 - (specTOC.margin + (specTOC.car.length + specTOC.car.wheelbase) / 2), 0)
      ((4 : ℝ) / 5, 0) =
      (10 - (specTOC.margin + (specTOC.car.length + specTOC.car.wheelbase) / 2), 0) := by
    simp only [fplArcStep, hadj]
    have hr : point_radius_of 1 ((4 : ℝ) / 5, (0 : ℝ)) 0 = Real.sqrt (41 / 25) := by
      simp only [point_radius_of]
      norm_num
    rw [hr, hirr, hof, hor]
    have hskip1 : ¬ (Real.sqrt (41 / 25) < 81 / 100) := not_lt.mpr (by
      calc (81 / 100 : ℝ) = Real.sqrt ((81 / 100) ^ 2) := (Real.sqrt_sq (by norm_num)).symm
      _ ≤ Real.sqrt (41 / 25) := Real.sqrt_le_sqrt (by norm_num))
    have hskip2 : Real.sqrt (16277 / 10000) ⊔ Real.sqrt (14357 / 10000) <
        Real.sqrt (41 / 25) := by
      rw [max_lt_iff]
      constructor <;> exact Real.sqrt_lt_sqrt (by norm_num) (by norm_num)
    rw [if_neg hskip1, if_pos hskip2]
  rw [hstep]
  norm_num [specTOC, specCar]

lemma cex_cl1_lb : -(19 / 100 : ℝ) ≤
    calculateClearance specTOC [((4 : ℝ) / 5, 0)] 1 (477 / 50) := by
  apply calculateClearance_lb <;> norm_num [specTOC, specCar]

lemma cex_gd1_ub : calculateDistanceToGoal specTOC 1 ≤ 13 := by
  simp only [calculateDistanceToGoal]
  rw [if_neg (by norm_num)]
  refine le_trans (sqrt_sq_add_sq_le _ _) ?_
  simp only [div_one, one_mul]
  have h10 : |(10 : ℝ)| = 10 := by norm_num
  have hterm1 : |(10 : ℝ) - Real.sin (specTOC.car.max_speed * specTOC.control_interval)| ≤
      11 := by
    refine le_trans (abs_sub_le_abs_add_abs _ _) ?_
    have := abs_sin_le_one' (specTOC.car.max_speed * specTOC.control_interval)
    linarith
  have hterm2 : |(0 : ℝ) - (1 - Real.cos (specTOC.car.max_speed * specTOC.control_interval))| ≤
      2 := by
    rw [zero_sub, abs_neg]
    exact abs_one_sub_cos_le_two _
  linarith

lemma cex_score1_lb : (3 / 2 : ℝ) ≤ (mkCandidate specTOC [((4 : ℝ) / 5, 0)] 1).score := by
  simp only [mkCandidate]
  rw [cex_fpl1]
  have h1 := cex_cl1_lb
  have h2 := cex_gd1_ub
  have h3 := calcDist_nonneg specTOC 1
  linarith

/-- Counterexample to C7 as stated: the cloud consisting of the single point
`(0.8, 0)` is invariant under reflection across `y = 0`, yet the selected
curvature is nonzero (the arc of curvature `1` culls the point and scores far
above the straight candidate), so the reflected command's curvature cannot be
the negation of the original's. -/
theorem C7_counterexample :
    ¬ ((generateCommand specTOC (reflectCloud [((4 : ℝ) / 5, 0)]) 0).curvature =
        -(generateCommand specTOC [((4 : ℝ) / 5, 0)] 0).curvature) := by
  intro hsym
  have hrefl : reflectCloud [((4 : ℝ) / 5, 0)] = [((4 : ℝ) / 5, 0)] := by
    simp [reflectCloud]
  rw [hrefl] at hsym
  have hzero : (generateCommand specTOC [((4 : ℝ) / 5, 0)] 0).curvature = 0 := by
    linarith
  have hc : (generateCommand specTOC [((4 : ℝ) / 5, 0)] 0).curvature =
      (evaluatePaths specTOC [((4 : ℝ) / 5, 0)]).curvature := rfl
  rw [hc] at hzero
  have h1mem : mkCandidate specTOC [((4 : ℝ) / 5, 0)] 1 ∈
      candidateList specTOC [((4 : ℝ) / 5, 0)] :=
    List.mem_map_of_mem _ one_mem_specSamples
  have hle := foldl_select_le_score (candidateList specTOC [((4 : ℝ) / 5, 0)])
    sentinelCandidate _ h1mem
  have hfold : evaluatePaths specTOC [((4 : ℝ) / 5, 0)] =
      (candidateList specTOC [((4 : ℝ) / 5, 0)]).foldl selectStep sentinelCandidate := rfl
  rcases foldl_select_mem (candidateList specTOC [((4 : ℝ) / 5, 0)]) sentinelCandidate
    with hb | hb
  · rw [hb] at hle
    have hs : sentinelCandidate.score = -100 := rfl
    linarith [cex_score1_lb]
  · obtain ⟨κ2, hκ2, hbk⟩ := List.mem_map.mp hb
    have hcurv : (evaluatePaths specTOC [((4 : ℝ) / 5, 0)]).curvature = κ2 := by
      rw [hfold, ← hbk, mkCandidate_curv]
    rw [hcurv] at hzero
    have hbest : (evaluatePaths specTOC [((4 : ℝ) / 5, 0)]).score =
        (mkCandidate specTOC [((4 : ℝ) / 5, 0)] 0).score := by
      rw [hfold, ← hbk, hzero]
    have hle2 : (mkCandidate specTOC [((4 : ℝ) / 5, 0)] 1).score ≤
        (mkCandidate specTOC [((4 : ℝ) / 5, 0)] 0).score := by
      rw [← hbest]
      exact hle
    rw [cex_score0] at hle2
    linarith [cex_score1_lb]

/-- C7 amended: reflection symmetry holds whenever the score maximum over the
sampled curvatures is unique (ties are broken towards the most negative
curvature in both runs, which is what the counterexample exploits): if `κs`
is the strictly unique score maximizer for the cloud, then reflecting the
cloud yields the command with curvature `-κs`, the exact negation, and the
same velocity. -/
theorem C7_reflection_symmetry (cloud : List (ℝ × ℝ)) (current_speed κs : ℝ)
    (hmem : κs ∈ sampleCurvatures specTOC)
    (huniq : ∀ κ ∈ sampleCurvatures specTOC, κ ≠ κs →
      (mkCandidate specTOC cloud κ).score < (mkCandidate specTOC cloud κs).score) :
    (generateCommand specTOC (reflectCloud cloud) current_speed).curvature =
      -(generateCommand specTOC cloud current_speed).curvature ∧
    (generateCommand specTOC (reflectCloud cloud) current_speed).velocity =
      (generateCommand specTOC cloud current_speed).velocity := by
  have horig : evaluatePaths specTOC cloud = mkCandidate specTOC cloud κs :=
    evaluatePaths_eq_of_unique cloud κs hmem huniq
  have hmem2 : -κs ∈ sampleCurvatures specTOC := samples_neg_mem κs hmem
  have huniq2 : ∀ κ ∈ sampleCurvatures specTOC, κ ≠ -κs →
      (mkCandidate specTOC (reflectCloud cloud) κ).score <
        (mkCandidate specTOC (reflectCloud cloud) (-κs)).score := by
    intro κ hκ hne
    rw [mkCandidate_reflect_score, mkCandidate_reflect_score, neg_neg]
    apply huniq (-κ) (samples_neg_mem κ hκ)
    intro h3
    apply hne
    rw [← h3, neg_neg]
  have hrefl : evaluatePaths specTOC (reflectCloud cloud) =
      mkCandidate specTOC (reflectCloud cloud) (-κs) :=
    evaluatePaths_eq_of_unique (reflectCloud cloud) (-κs) hmem2 huniq2
  have hc1 : (generateCommand specTOC (reflectCloud cloud) current_speed).curvature =
      (evaluatePaths specTOC (reflectCloud cloud)).curvature := rfl
  have hc2 : (generateCommand specTOC cloud current_speed).curvature =
      (evaluatePaths specTOC cloud).curvature := rfl
  have hv1 : (generateCommand specTOC (reflectCloud cloud) current_speed).velocity =
      calculateControlSpeed specTOC current_speed
        (evaluatePaths specTOC (reflectCloud cloud)).free_path_length := rfl
  have hv2 : (generateCommand specTOC cloud current_speed).velocity =
      calculateControlSpeed specTOC current_speed
        (evaluatePaths specTOC cloud).free_path_length := rfl
  constructor
  · rw [hc1, hc2, hrefl, horig, mkCandidate_curv, mkCandidate_curv]
  · rw [hv1, hv2, hrefl, horig]
    congr 1
    rw [mkCandidate_reflect_fpl, neg_neg]

lemma emptyCloud_fpl (κ : ℝ) : calculateFreePathLength specTOC [] κ =
    10 - (specTOC.margin + (specTOC.car.length + specTOC.car.wheelbase) / 2) := by
  simp only [calculateFreePathLength]
  split_ifs <;> rfl

lemma emptyCloud_cl (κ fpl : ℝ) :
    calculateClearance specTOC [] κ fpl = specTOC.max_clearance := by
  simp only [calculateClearance]
  split_ifs <;> rfl

lemma emptyCloud_gd_gt (κ : ℝ) (hκ : κ ∈ sampleCurvatures specTOC) (hne : κ ≠ 0) :
    calculateDistanceToGoal specTOC 0 < calculateDistanceToGoal specTOC κ := by
  rcases specSamples_cases κ hκ with rfl | ⟨hlo, hhi⟩
  · exact absurd rfl hne
  · rw [cex_gd0]
    simp only [calculateDistanceToGoal]
    rw [if_neg (not_lt.mpr (by linarith))]
    set R := (1 : ℝ) / κ with hR
    set φ := specTOC.car.max_speed * specTOC.control_interval / R with hφ
    have hRne : R ≠ 0 := one_div_ne_zero hne
    have hRφ : R * φ = 1 / 20 := by
      rw [hφ, mul_comm, div_mul_cancel₀ _ hRne]
      norm_num [specTOC, specCar]
    have hsin : R * Real.sin φ < 1 / 20 := by
      rcases lt_trichotomy κ 0 with hneg | h0 | hpos
      · have hRneg : R < 0 := by
          rw [hR]
          exact one_div_neg.mpr hneg
        have hφneg : φ < 0 := by
          rw [hφ]
          apply div_neg_of_pos_of_neg _ hRneg
          norm_num [specTOC, specCar]
        have hs : φ < Real.sin φ := by
          have h2 := Real.sin_lt (show 0 < -φ by linarith)
          rw [Real.sin_neg] at h2
          linarith
        have h3 := mul_lt_mul_of_neg_left hs hRneg
        rw [hRφ] at h3
        exact h3
      · exact absurd h0 hne
      · have hRpos : 0 < R := by
          rw [hR]
          positivity
        have hs : Real.sin φ < φ := by
          apply Real.sin_lt
          rw [hφ]
          apply div_pos _ hRpos
          norm_num [specTOC, specCar]
        have h3 := mul_lt_mul_of_pos_left hs hRpos
        rw [hRφ] at h3
        exact h3
    have hge : |(10 : ℝ) - R * Real.sin φ| ≤
        Real.sqrt ((10 - R * Real.sin φ) ^ 2 + (0 - (R - R * Real.cos φ)) ^ 2) := by
      rw [← Real.sqrt_sq_eq_abs]
      exact Real.sqrt_le_sqrt (by nlinarith [sq_nonneg (0 - (R - R * Real.cos φ))])
    have habs : 10 - R * Real.sin φ ≤ |10 - R * Real.sin φ| := le_abs_self _
    linarith

lemma emptyCloud_unique : ∀ κ ∈ sampleCurvatures specTOC, κ ≠ (0 : ℝ) →
    (mkCandidate specTOC [] κ).score < (mkCandidate specTOC [] (0 : ℝ)).score := by
  intro κ hκ hne
  simp only [mkCandidate]
  rw [emptyCloud_fpl, emptyCloud_fpl, emptyCloud_cl, emptyCloud_cl]
  have := emptyCloud_gd_gt κ hκ hne
  linarith

/-- Witness for the amended C7: the empty cloud, whose unique score maximizer
is the straight sample `κ = 0` (goal distance strictly grows with arc
length). -/
theorem C7_reflection_symmetry_witness :
    (0 : ℝ) ∈ sampleCurvatures specTOC ∧
    (∀ κ ∈ sampleCurvatures specTOC, κ ≠ (0 : ℝ) →
      (mkCandidate specTOC [] κ).score < (mkCandidate specTOC [] (0 : ℝ)).score) ∧
    ((generateCommand specTOC (reflectCloud []) 0).curvature =
        -(generateCommand specTOC [] 0).curvature ∧
      (generateCommand specTOC (reflectCloud []) 0).velocity =
        (generateCommand specTOC [] 0).velocity) :=
  ⟨zero_mem_specSamples, emptyCloud_unique,
   C7_reflection_symmetry [] 0 0 zero_mem_specSamples emptyCloud_unique⟩

end time_optimal_1D

namespace latency_compensation

lemma histMonotone_head_le (c : CommandStamped) (t : List CommandStamped)
    (hm : histMonotone (c :: t)) : ∀ e ∈ t, c.timestamp ≤ e.timestamp := by
  induction t generalizing c with
  | nil => intro e he; simp at he
  | cons d t2 ih =>
    intro e he
    have h1 : c.timestamp ≤ d.timestamp := (List.chain'_cons.mp hm).1
    rcases List.mem_cons.mp he with rfl | he2
    · exact h1
    · exact le_trans h1 (ih d (List.chain'_cons.mp hm).2 e he2)

lemma pruneHistory_drop (now lat : ℝ) (h : List CommandStamped) :
    ∃ k, pruneHistory now lat h = h.drop k := by
  unfold pruneHistory
  induction h with
  | nil => exact ⟨0, rfl⟩
  | cons c t ih =>
    rw [List.dropWhile_cons]
    split_ifs
    · obtain ⟨k, hk⟩ := ih
      exact ⟨k + 1, by simpa using hk⟩
    · exact ⟨0, rfl⟩

lemma pruneHistory_survivors (now lat : ℝ) (h : List CommandStamped)
    (hmono : histMonotone h) :
    ∀ e ∈ pruneHistory now lat h, now - e.timestamp < lat := by
  unfold pruneHistory
  induction h with
  | nil => intro e he; simp at he
  | cons c t ih =>
    rw [List.dropWhile_cons]
    split_ifs with hc
    · exact ih (List.Chain'.tail hmono)
    · intro e he
      have hc2 : ¬ (lat ≤ now - c.timestamp) := by simpa using hc
      rcases List.mem_cons.mp he with rfl | het
      · exact not_le.mp hc2
      · have h3 : c.timestamp ≤ e.timestamp := histMonotone_head_le c t hmono e het
        have h4 : now - c.timestamp < lat := not_le.mp hc2
        linarith

/-- Counterexample to C8 as stated: recording a command stamped `5` behind a
history whose tail is stamped `10` stores the timestamp `5` unchanged (no
clamping), and the history's timestamps are no longer non-decreasing. -/
theorem C8_counterexample :
    recordCommand [⟨⟨1, 0⟩, 10⟩] ⟨⟨1, 0⟩, 5⟩ = [⟨⟨1, 0⟩, 10⟩, ⟨⟨1, 0⟩, 5⟩] ∧
      ¬ histMonotone (recordCommand [⟨⟨1, 0⟩, 10⟩] ⟨⟨1, 0⟩, 5⟩) := by
  constructor
  · rfl
  · intro hmono
    simp only [recordCommand, histMonotone, List.singleton_append,
      List.chain'_cons, List.chain'_singleton, and_true] at hmono
    norm_num at hmono

/-- C8 amended: `recordCommand` appends the command with its timestamp
unchanged; the timestamps of the history stay non-decreasing exactly when the
new command's timestamp is at least the old tail's. -/
theorem C8_record_appends_unclamped (h : List CommandStamped) (c : CommandStamped)
    (hmono : histMonotone h) :
    recordCommand h c = h ++ [c] ∧
      (histMonotone (recordCommand h c) ↔
        ∀ t ∈ h.getLast?, t.timestamp ≤ c.timestamp) := by
  refine ⟨rfl, ?_⟩
  have hmono2 : List.Chain' (fun a b => a.timestamp ≤ b.timestamp) h := hmono
  unfold histMonotone recordCommand
  rw [List.chain'_append]
  simp [hmono2]

/-- Witness for the amended C8: appending a later-stamped command to a
singleton history. -/
theorem C8_record_appends_unclamped_witness :
    histMonotone [⟨⟨1, 0⟩, (1 : ℝ)⟩] ∧
      (recordCommand [⟨⟨1, 0⟩, (1 : ℝ)⟩] ⟨⟨1, 0⟩, 2⟩ = [⟨⟨1, 0⟩, (1 : ℝ)⟩] ++ [⟨⟨1, 0⟩, 2⟩] ∧
        (histMonotone (recordCommand [⟨⟨1, 0⟩, (1 : ℝ)⟩] ⟨⟨1, 0⟩, 2⟩) ↔
          ∀ t ∈ ([⟨⟨1, 0⟩, (1 : ℝ)⟩] : List CommandStamped).getLast?,
            t.timestamp ≤ (⟨⟨1, 0⟩, 2⟩ : CommandStamped).timestamp)) :=
  ⟨by simp [histMonotone],
   C8_record_appends_unclamped [⟨⟨1, 0⟩, (1 : ℝ)⟩] ⟨⟨1, 0⟩, 2⟩ (by simp [histMonotone])⟩

/-- C9: after every `generateCommand` of the compensator (with a
timestamp-monotone history and positive latency), every surviving history
entry satisfies `now - timestamp < latency`, and the new history is a suffix
of the old one (head-only pruning, order preserved) followed by the newly
recorded command stamped `now`. -/
theorem C9_history_invariant (L : Controller) (now current_speed : ℝ)
    (cloud : List (ℝ × ℝ))
    (hmono : histMonotone L.history) (hlat : 0 < L.latency) :
    (∀ e ∈ (generateCommand L now cloud current_speed).2.history,
        now - e.timestamp < L.latency) ∧
    ∃ k, (generateCommand L now cloud current_speed).2.history =
        L.history.drop k ++ [⟨(generateCommand L now cloud current_speed).1, now⟩] := by
  obtain ⟨toc, lat, hist⟩ := L
  cases hist with
  | nil =>
    constructor
    · intro e he
      simp only [generateCommand, projectState, recordCommand, List.nil_append,
        List.mem_singleton] at he
      rw [he]
      simpa using hlat
    · exact ⟨0, rfl⟩
  | cons c t =>
    have hhist : (generateCommand ⟨toc, lat, c :: t⟩ now cloud current_speed).2.history =
        pruneHistory now lat (c :: t) ++
          [⟨(generateCommand ⟨toc, lat, c :: t⟩ now cloud current_speed).1, now⟩] := rfl
    constructor
    · intro e he
      rw [hhist] at he
      rcases List.mem_append.mp he with h1 | h1
      · exact pruneHistory_survivors now lat (c :: t) hmono e h1
      · rw [List.mem_singleton.mp h1]
        simpa using hlat
    · obtain ⟨k, hk⟩ := pruneHistory_drop now lat (c :: t)
      exact ⟨k, by rw [hhist, hk]⟩

/-- Witness for C9: a singleton history stamped `1`, `now = 2.5`, latency
`0.6` (the old entry is pruned, the new command survives). -/
theorem C9_history_invariant_witness :
    histMonotone [⟨⟨1, 0⟩, (1 : ℝ)⟩] ∧
      0 < (0.6 : ℝ) ∧
      ((∀ e ∈ (generateCommand ⟨controllers.specTOC, 0.6, [⟨⟨1, 0⟩, (1 : ℝ)⟩]⟩
            2.5 [] 0).2.history, (2.5 : ℝ) - e.timestamp < 0.6) ∧
        ∃ k, (generateCommand ⟨controllers.specTOC, 0.6, [⟨⟨1, 0⟩, (1 : ℝ)⟩]⟩
            2.5 [] 0).2.history =
          [⟨⟨1, 0⟩, (1 : ℝ)⟩].drop k ++
            [⟨(generateCommand ⟨controllers.specTOC, 0.6, [⟨⟨1, 0⟩, (1 : ℝ)⟩]⟩
                2.5 [] 0).1, 2.5⟩]) :=
  ⟨by simp [histMonotone], by norm_num,
   C9_history_invariant ⟨controllers.specTOC, 0.6, [⟨⟨1, 0⟩, (1 : ℝ)⟩]⟩ 2.5 0 []
     (by simp [histMonotone]) (by norm_num)⟩

end latency_compensation

/-- A concrete compensator state whose single history entry is stale. -/
def probeLC : latency_compensation.Controller :=
  { toc := specTOC, latency := 1, history := [⟨⟨1, 0⟩, 0⟩] }

/-- C10: the compensator's `calculateFreePathLength` probe is not a pure
observer: it leaves the sampler parameters and the latency unchanged for every
input, but for the concrete stale history of `probeLC` it prunes the history
(a genuine mutation of the compensator's state). -/
theorem C10_probe_mutates_history :
    (∀ (L : latency_compensation.Controller) (now : ℝ) (cloud : List (ℝ × ℝ)) (κ : ℝ),
        (latency_compensation.calculateFreePathLength L now cloud κ).2.toc = L.toc ∧
        (latency_compensation.calculateFreePathLength L now cloud κ).2.latency = L.latency) ∧
      (latency_compensation.calculateFreePathLength probeLC 10 [] 0).2.history ≠
        probeLC.history := by
  constructor
  · intro L now cloud κ
    exact ⟨rfl, rfl⟩
  · have h : (latency_compensation.calculateFreePathLength probeLC 10 [] 0).2.history =
        latency_compensation.pruneHistory 10 1 [⟨⟨1, 0⟩, 0⟩] := rfl
    rw [h]
    have h2 : latency_compensation.pruneHistory 10 1 [⟨⟨1, 0⟩, (0 : ℝ)⟩] = [] := by
      simp only [latency_compensation.pruneHistory, List.dropWhile_cons,
        decide_eq_true_eq, List.dropWhile_nil]
      rw [if_pos (by norm_num)]
    rw [h2]
    simp [probeLC]

end controllers

end
